import Mathlib

/-!
Shallow embedding of the `winkel` retained-mode UI toolkit
(`src/widgets/core.rs`, `src/widgets/extra.rs`): the layout pass
(`compute`), the event dispatch pass (`dispatch`) and the composite
`Button`. `f64` coordinates are modelled by `ℚ`; the id-keyed
`HashMap<usize, ComputedWidget>` layout map by an association list with
replacing insert; a Rust panic (`unwrap` on a missing layout entry) by
`none` in an `Option`-valued dispatch. Callbacks, which in the source
mutate shared `State<T>` cells, are modelled as explicit
state-transformer functions `σ → σ × Bool` over a state type `σ`
threaded through dispatch.
-/

namespace Winkel

/-- The color type `[f32; 4]` (`src/color.rs`), modelled with exact rationals. -/
abbrev Color := ℚ × ℚ × ℚ × ℚ

/-- Modelled from the spec: text render payload (color, point size, font
reference) carried by a `Text` layout record; the defining Rust struct
`TextStyle` lives in the crate root, which is absent from `src/`. -/
structure TextStyle where
  color : Color
  size : Nat
  font : String
  deriving DecidableEq

/-- Modelled from the spec: rectangle paint style (optional fill color and
border radius); the defining crate-root struct `Style` is absent from
`src/` (a legacy variant appears in `src/lib.rs`). -/
structure Style where
  color : Option Color
  border_radius : ℚ
  deriving DecidableEq

/-- Modelled from the spec: the optional render payload of a layout
record — a styled rectangle or a styled text run — or none for
layout-only nodes; the defining crate-root enum is absent from `src/`. -/
inductive RenderObject where
  | rectangle (style : Style)
  | text (text : String) (style : TextStyle)
  deriving DecidableEq

/-- Modelled from the spec: one layout record per node id, holding the
absolute x, y, paint order z, width, height and an optional render
payload; the defining crate-root struct is absent from `src/` (a legacy
variant appears in `src/lib.rs`). -/
structure ComputedWidget where
  x : ℚ
  y : ℚ
  z : Nat
  width : ℚ
  height : ℚ
  render : Option RenderObject
  deriving DecidableEq

/-- Modelled from the spec: pointer events with absolute window
coordinates; the defining crate-root enum is absent from `src/` (its
legacy variant in `src/lib.rs` lacks `MouseMove`, which
`src/gltests/main.rs` and `src/widgets/core.rs` use). -/
inductive Event where
  | mouseDown (x y : ℚ) (button : Nat)
  | mouseUp (x y : ℚ) (button : Nat)
  | mouseMove (prev_x prev_y x y : ℚ)
  deriving DecidableEq

/-- The layout map `HashMap<usize, ComputedWidget>` as an association
list keyed by widget id. -/
abbrev LayoutMap := List (Nat × ComputedWidget)

/-- Rust `HashMap::insert`: replace the record at an existing key,
otherwise add a new entry. -/
def LayoutMap.insert (m : LayoutMap) (k : Nat) (v : ComputedWidget) : LayoutMap :=
  match m with
  | [] => [(k, v)]
  | (k', v') :: rest =>
    if k' = k then (k, v) :: rest else (k', v') :: LayoutMap.insert rest k v

/-- Rust `HashMap::get`: the record stored at a key, if any. -/
def LayoutMap.find? (m : LayoutMap) (k : Nat) : Option ComputedWidget :=
  match m with
  | [] => none
  | (k', v') :: rest => if k' = k then some v' else LayoutMap.find? rest k

/-- Modelled from the spec: hit-testing a point against a layout record's
absolute rectangle. The spec fixes plain rectangle containment ("rounded
corner exclusion at the four arcs is never applied during dispatch"), so
the border-radius argument is accepted and ignored; the boundary
convention (strict inequalities) follows the legacy in-repo hit test in
`src/lib.rs` (`Button::dispatch`). The defining crate-root method
`ComputedWidget::in_hitbox` is absent from `src/`. -/
def ComputedWidget.in_hitbox (c : ComputedWidget) (x y : ℚ) (borderRadius : ℚ) : Bool :=
  decide (c.x < x) && decide (c.y < y) &&
    decide (x < c.x + c.width) && decide (y < c.y + c.height)

/-- The widget tree of `src/widgets/core.rs`, closed over the concrete
node kinds. `σ` is the type of the shared mutable state reachable from
callbacks (the contents of all `State<T>` cells); a `MouseGesture`
callback `Fn(u8) -> bool` becomes `Nat → σ → σ × Bool`, returning the
mutated state and whether it changed. Row/column children are stored
paired with their flex weight (the source keeps two equal-length
vectors, `children` and `flex`, maintained in lockstep by the builder). -/
inductive Widget (σ : Type) where
  | text (id : Nat) (str : String) (size : Nat) (font : String) (color : Color)
  | rectangle (id : Nat) (color : Color) (border_radius : ℚ)
  | empty (id : Nat)
  | mouseGesture (id : Nat) (border_radius : ℚ)
      (click_callback release_callback : Option (Nat → σ → σ × Bool))
      (enter_callback leave_callback : Option (σ → σ × Bool))
      (background : Widget σ)
  | padding (id : Nat) (left top right bottom : ℚ) (child : Widget σ)
  | row (id : Nat) (children : List (Widget σ × Nat))
  | column (id : Nat) (children : List (Widget σ × Nat))
  | stack (id : Nat) (children : List (Widget σ))

mutual

/-- The layout pass `Widget::compute` from `src/widgets/core.rs` (one clause per `impl`):
recursively fills the layout map. -/
def Widget.compute {σ : Type} : Widget σ → ℚ → ℚ → Nat → ℚ → ℚ → LayoutMap → LayoutMap
  | .text i str sz font color, x, y, z, width, height, m =>
    m.insert i ⟨x, y, z, width, height,
      some (.text str ⟨color, sz, font⟩)⟩
  | .rectangle i color br, x, y, z, width, height, m =>
    m.insert i ⟨x, y, z, width, height,
      some (.rectangle ⟨some color, br⟩)⟩
  | .empty _, _, _, _, _, _, m => m
  | .mouseGesture i _ _ _ _ _ bg, x, y, z, width, height, m =>
    (bg.compute x y z width height m).insert i ⟨x, y, z, width, height, none⟩
  | .padding _ l t r b c, x, y, z, width, height, m =>
    let w0 := width - r - l
    let h0 := height - b - t
    let w := if w0 < 0 then 0 else w0
    let h := if h0 < 0 then 0 else h0
    c.compute (x + l) (y + t) z w h m
  | .row _ cs, x, y, z, width, height, m =>
    let total : Nat := (cs.map Prod.snd).sum
    let each := width / (total : ℚ)
    Widget.rowGo cs x y z each height 0 m
  | .column _ cs, x, y, z, width, height, m =>
    let total : Nat := (cs.map Prod.snd).sum
    let each := height / (total : ℚ)
    Widget.colGo cs x y z each width 0 m
  | .stack _ cs, x, y, z, width, height, m =>
    Widget.stackGo cs x y z width height m

/-- The `Row::compute` child loop: `prevFlex` is the running sum of the
flex weights already placed, `each` the unit width `width / Σ flex`. -/
def Widget.rowGo {σ : Type} :
    List (Widget σ × Nat) → ℚ → ℚ → Nat → ℚ → ℚ → Nat → LayoutMap → LayoutMap
  | [], _, _, _, _, _, _, m => m
  | (c, f) :: rest, x, y, z, each, height, prevFlex, m =>
    Widget.rowGo rest x y z each height (prevFlex + f)
      (c.compute (x + (prevFlex : ℚ) * each) y z (each * (f : ℚ)) height m)

/-- The `Column::compute` child loop (split along `height`). -/
def Widget.colGo {σ : Type} :
    List (Widget σ × Nat) → ℚ → ℚ → Nat → ℚ → ℚ → Nat → LayoutMap → LayoutMap
  | [], _, _, _, _, _, _, m => m
  | (c, f) :: rest, x, y, z, each, width, prevFlex, m =>
    Widget.colGo rest x y z each width (prevFlex + f)
      (c.compute x (y + (prevFlex : ℚ) * each) z width (each * (f : ℚ)) m)

/-- The `Stack::compute` child loop: child `i` gets paint order `z + i`. -/
def Widget.stackGo {σ : Type} :
    List (Widget σ) → ℚ → ℚ → Nat → ℚ → ℚ → LayoutMap → LayoutMap
  | [], _, _, _, _, _, m => m
  | c :: rest, x, y, z, width, height, m =>
    Widget.stackGo rest x y (z + 1) width height (c.compute x y z width height m)

end

mutual

/-- The dispatch pass `Widget::dispatch` from `src/widgets/core.rs` (one clause per `impl`).
Result `none` models the Rust panic of `map.get(&self.get_id()).unwrap()`
on a missing layout entry; `some (remaining_event?, state_changed_flag,
new_state)` models a normal return, with the shared mutable state
threaded explicitly. -/
def Widget.dispatch {σ : Type} :
    Widget σ → Event → Bool → LayoutMap → σ → Option (Option Event × Bool × σ)
  | .text _ _ _ _ _, ev, p, _, s => some (some ev, p, s)
  | .rectangle _ _ _, ev, p, _, s => some (some ev, p, s)
  | .empty _, ev, p, _, s => some (some ev, p, s)
  | .mouseGesture i br cc rc ec lc _, ev, p, m, s =>
    match m.find? i with
    | none => none
    | some cw =>
      match ev with
      | .mouseDown x y btn =>
        if cw.in_hitbox x y br then
          let r := match cc with | some f => f btn s | none => (s, false)
          some (none, p || r.2, r.1)
        else
          some (some (.mouseDown x y btn), p, s)
      | .mouseUp x y btn =>
        if cw.in_hitbox x y br then
          let r := match rc with | some f => f btn s | none => (s, false)
          some (none, p || r.2, r.1)
        else
          some (some (.mouseUp x y btn), p, s)
      | .mouseMove px py x y =>
        if cw.in_hitbox x y br && !cw.in_hitbox px py br then
          let r := match ec with | some f => f s | none => (s, false)
          some (none, p || r.2, r.1)
        else if !cw.in_hitbox x y br && cw.in_hitbox px py br then
          let r := match lc with | some f => f s | none => (s, false)
          some (none, p || r.2, r.1)
        else
          some (some (.mouseMove px py x y), p, s)
  | .padding _ _ _ _ _ c, ev, p, m, s => c.dispatch ev p m s
  | .row _ cs, ev, p, m, s => Widget.dispatchLoopP cs ev p m s p
  | .column _ cs, ev, p, m, s => Widget.dispatchLoopP cs ev p m s p
  | .stack _ cs, ev, p, m, s => Widget.dispatchLoop cs ev p m s p

/-- The `Stack::dispatch` child loop (identical in `Row`/`Column`):
`acc` is the running `state_change` local, initialised by the caller to
`prev_state_change` and overwritten each iteration with
`prev_state_change | r.1`; the walk stops once a child consumes the
event. A `none` from a child (panic) aborts the whole dispatch. -/
def Widget.dispatchLoop {σ : Type} :
    List (Widget σ) → Event → Bool → LayoutMap → σ → Bool →
      Option (Option Event × Bool × σ)
  | [], ev, _, _, s, acc => some (some ev, acc, s)
  | c :: rest, ev, p, m, s, acc =>
    match c.dispatch ev p m s with
    | none => none
    | some (none, b, s') => some (none, p || b, s')
    | some (some ev', b, s') => Widget.dispatchLoop rest ev' p m s' (p || b)

/-- The `Row::dispatch`/`Column::dispatch` child loop; the flex weights
stored alongside the children play no role in dispatch. -/
def Widget.dispatchLoopP {σ : Type} :
    List (Widget σ × Nat) → Event → Bool → LayoutMap → σ → Bool →
      Option (Option Event × Bool × σ)
  | [], ev, _, _, s, acc => some (some ev, acc, s)
  | (c, _) :: rest, ev, p, m, s, acc =>
    match c.dispatch ev p m s with
    | none => none
    | some (none, b, s') => some (none, p || b, s')
    | some (some ev', b, s') => Widget.dispatchLoopP rest ev' p m s' (p || b)

end

/-- The `state_changed` booleans reported by the children a container
loop dispatches into, in child order, stopping (inclusively) at the
first child that consumes the event; `none` if a dispatched child
panics. -/
def dispatchReports {σ : Type} :
    List (Widget σ) → Event → Bool → LayoutMap → σ → Option (List Bool)
  | [], _, _, _, _ => some []
  | c :: rest, ev, p, m, s =>
    match c.dispatch ev p m s with
    | none => none
    | some (none, b, _) => some [b]
    | some (some ev', b, s') => (dispatchReports rest ev' p m s').map (b :: ·)

/-- The per-child geometry along the split axis produced by the
`Row::compute` / `Column::compute` loop: for each flex weight the pair
(cumulative offset, extent `each · weight`), the offset starting at
`start` and advancing by `weight · each`. -/
def flexGeoms : List Nat → ℚ → ℚ → List (ℚ × ℚ)
  | [], _, _ => []
  | f :: rest, start, each =>
    (start, each * (f : ℚ)) :: flexGeoms rest (start + (f : ℚ) * each) each

/-- The unit extent `extent / Σ weights` a row/column allots per unit of
flex weight. -/
def unitExtent (ws : List Nat) (extent : ℚ) : ℚ := extent / ((ws.sum : ℕ) : ℚ)

/-- Modelled from the spec: the contents of the `State<Rectangle>` cell a
button binds (the rectangle's current fill color), together with
whatever state `υ` the user's `pressed` callback closes over; the
defining crate-root `State<T>` cell type is absent from `src/`. -/
structure ButtonState (υ : Type) where
  rectColor : Color
  user : υ

/-- The `on_click` closure of `Button::build_state`
(`src/widgets/extra.rs`): write the active color into the bound cell and
report a state change. -/
def Button.clickCb {υ : Type} (active : Color) :
    Nat → ButtonState υ → ButtonState υ × Bool :=
  fun _ s => ({ s with rectColor := active }, true)

/-- The `on_release` closure of `Button::build_state`: write the hover
color into the bound cell, then invoke the user's `pressed` callback
(when configured) once with the button code, and report a state
change. -/
def Button.releaseCb {υ : Type} (hover : Color)
    (pressed : Option (Nat → ButtonState υ → ButtonState υ)) :
    Nat → ButtonState υ → ButtonState υ × Bool :=
  fun btn s =>
    let s1 := { s with rectColor := hover }
    match pressed with
    | some f => (f btn s1, true)
    | none => (s1, true)

/-- The `on_enter` closure of `Button::build_state`: write the hover
color and report a state change. -/
def Button.enterCb {υ : Type} (hover : Color) :
    ButtonState υ → ButtonState υ × Bool :=
  fun s => ({ s with rectColor := hover }, true)

/-- The `on_leave` closure of `Button::build_state`: write the base
color and report a state change. -/
def Button.leaveCb {υ : Type} (base : Color) :
    ButtonState υ → ButtonState υ × Bool :=
  fun s => ({ s with rectColor := base }, true)

/-- The builder `Button::build_state` (`src/widgets/extra.rs`): a pointer-gesture
wrapper with the four closures above around a stack of the state-bound
rectangle and the optional user child. The three fresh `COUNTER` ids are
passed explicitly. -/
def Button.build_state {υ : Type} (base hover active : Color) (br : ℚ)
    (pressed : Option (Nat → ButtonState υ → ButtonState υ))
    (child : Option (Widget (ButtonState υ)))
    (rect_id stack_id gesture_id : Nat) : Widget (ButtonState υ) :=
  Widget.mouseGesture gesture_id br
    (some (Button.clickCb active)) (some (Button.releaseCb hover pressed))
    (some (Button.enterCb hover)) (some (Button.leaveCb base))
    (Widget.stack stack_id (Widget.rectangle rect_id base br :: child.toList))

/-- The builders `RowBuilder::build` / `ColumnBuilder::build`
(`src/widgets/core.rs`): allocate the node as configured; no validation
of any kind is performed on the children or flex weights. -/
def RowBuilder.build {σ : Type} (children : List (Widget σ × Nat)) (i : Nat) :
    Widget σ :=
  Widget.row i children

/-! ### Invariants of the dispatch pass -/

mutual

/-- A widget that passes an event through returns it unchanged together
with the caller's flag and an unmutated state. -/
theorem dispatch_pass {σ : Type} (w : Widget σ) (ev : Event) (p : Bool) (m : LayoutMap)
    (s : σ) (e' : Event) (b : Bool) (s' : σ)
    (h : w.dispatch ev p m s = some (some e', b, s')) :
    e' = ev ∧ b = p ∧ s' = s := by
  cases w with
  | text i str sz font color =>
    simp only [Widget.dispatch, Option.some.injEq, Prod.mk.injEq] at h
    exact ⟨h.1.symm, h.2.1.symm, h.2.2.symm⟩
  | rectangle i color br =>
    simp only [Widget.dispatch, Option.some.injEq, Prod.mk.injEq] at h
    exact ⟨h.1.symm, h.2.1.symm, h.2.2.symm⟩
  | empty i =>
    simp only [Widget.dispatch, Option.some.injEq, Prod.mk.injEq] at h
    exact ⟨h.1.symm, h.2.1.symm, h.2.2.symm⟩
  | mouseGesture i br cc rc ec lc bg =>
    cases hf : LayoutMap.find? m i with
    | none =>
      simp only [Widget.dispatch, hf] at h
      exact Option.noConfusion h
    | some cw =>
      cases ev with
      | mouseDown x y btn =>
        by_cases hin : cw.in_hitbox x y br <;> simp [Widget.dispatch, hf, hin] at h
        exact ⟨h.1.symm, h.2.1.symm, h.2.2.symm⟩
      | mouseUp x y btn =>
        by_cases hin : cw.in_hitbox x y br <;> simp [Widget.dispatch, hf, hin] at h
        exact ⟨h.1.symm, h.2.1.symm, h.2.2.symm⟩
      | mouseMove px py x y =>
        by_cases hin : cw.in_hitbox x y br <;>
          by_cases hpin : cw.in_hitbox px py br <;>
          simp [Widget.dispatch, hf, hin, hpin] at h <;>
          exact ⟨h.1.symm, h.2.1.symm, h.2.2.symm⟩
  | padding i l t r bo c =>
    exact dispatch_pass c ev p m s e' b s' h
  | row i cs =>
    simp only [Widget.dispatch] at h
    obtain ⟨he, hb, hs⟩ := dispatchLoopP_pass cs ev p m s p e' b s' h
    exact ⟨he, hb.elim id id, hs⟩
  | column i cs =>
    simp only [Widget.dispatch] at h
    obtain ⟨he, hb, hs⟩ := dispatchLoopP_pass cs ev p m s p e' b s' h
    exact ⟨he, hb.elim id id, hs⟩
  | stack i cs =>
    simp only [Widget.dispatch] at h
    obtain ⟨he, hb, hs⟩ := dispatchLoop_pass cs ev p m s p e' b s' h
    exact ⟨he, hb.elim id id, hs⟩

/-- Loop analogue of `dispatch_pass`: a loop that finishes with the event
alive leaves the state untouched and the flag at its initial or seeded
value. -/
theorem dispatchLoop_pass {σ : Type} (cs : List (Widget σ)) (ev : Event) (p : Bool)
    (m : LayoutMap) (s : σ) (acc : Bool) (e' : Event) (b : Bool) (s' : σ)
    (h : Widget.dispatchLoop cs ev p m s acc = some (some e', b, s')) :
    e' = ev ∧ (b = acc ∨ b = p) ∧ s' = s := by
  cases cs with
  | nil =>
    simp only [Widget.dispatchLoop, Option.some.injEq, Prod.mk.injEq] at h
    exact ⟨h.1.symm, Or.inl h.2.1.symm, h.2.2.symm⟩
  | cons c rest =>
    rw [Widget.dispatchLoop] at h
    cases hc : c.dispatch ev p m s with
    | none => rw [hc] at h; simp at h
    | some r =>
      obtain ⟨oe, b0, s0⟩ := r
      cases oe with
      | none => rw [hc] at h; simp at h
      | some ev1 =>
        rw [hc] at h
        obtain ⟨hev, hb0, hs0⟩ := dispatch_pass c ev p m s ev1 b0 s0 hc
        obtain ⟨he', hb', hs'⟩ := dispatchLoop_pass rest ev1 p m s0 (p || b0) e' b s' h
        subst hev hb0 hs0
        refine ⟨he', ?_, hs'⟩
        rcases hb' with h1 | h1
        · exact Or.inr (by simpa using h1)
        · exact Or.inr h1

/-- Pair-list analogue of `dispatchLoop_pass` for row/column children. -/
theorem dispatchLoopP_pass {σ : Type} (cs : List (Widget σ × Nat)) (ev : Event) (p : Bool)
    (m : LayoutMap) (s : σ) (acc : Bool) (e' : Event) (b : Bool) (s' : σ)
    (h : Widget.dispatchLoopP cs ev p m s acc = some (some e', b, s')) :
    e' = ev ∧ (b = acc ∨ b = p) ∧ s' = s := by
  cases cs with
  | nil =>
    simp only [Widget.dispatchLoopP, Option.some.injEq, Prod.mk.injEq] at h
    exact ⟨h.1.symm, Or.inl h.2.1.symm, h.2.2.symm⟩
  | cons cf rest =>
    obtain ⟨c, f⟩ := cf
    rw [Widget.dispatchLoopP] at h
    cases hc : c.dispatch ev p m s with
    | none => rw [hc] at h; simp at h
    | some r =>
      obtain ⟨oe, b0, s0⟩ := r
      cases oe with
      | none => rw [hc] at h; simp at h
      | some ev1 =>
        rw [hc] at h
        obtain ⟨hev, hb0, hs0⟩ := dispatch_pass c ev p m s ev1 b0 s0 hc
        obtain ⟨he', hb', hs'⟩ := dispatchLoopP_pass rest ev1 p m s0 (p || b0) e' b s' h
        subst hev hb0 hs0
        refine ⟨he', ?_, hs'⟩
        rcases hb' with h1 | h1
        · exact Or.inr (by simpa using h1)
        · exact Or.inr h1

end

mutual

/-- The flag returned by a dispatch absorbs the caller's prior flag: a
`true` seeded by the caller is never dropped. -/
theorem dispatch_mono {σ : Type} (w : Widget σ) (ev : Event) (p : Bool) (m : LayoutMap)
    (s : σ) (oe : Option Event) (b : Bool) (s' : σ)
    (h : w.dispatch ev p m s = some (oe, b, s')) :
    (p || b) = b := by
  cases w with
  | text i str sz font color =>
    simp only [Widget.dispatch] at h
    injection h with h1
    injection h1 with h2 h3
    injection h3 with h4 h5
    subst h4
    exact Bool.or_self p
  | rectangle i color br =>
    simp only [Widget.dispatch] at h
    injection h with h1
    injection h1 with h2 h3
    injection h3 with h4 h5
    subst h4
    exact Bool.or_self p
  | empty i =>
    simp only [Widget.dispatch] at h
    injection h with h1
    injection h1 with h2 h3
    injection h3 with h4 h5
    subst h4
    exact Bool.or_self p
  | mouseGesture i br cc rc ec lc bg =>
    cases hf : LayoutMap.find? m i with
    | none =>
      simp only [Widget.dispatch, hf] at h
      exact Option.noConfusion h
    | some cw =>
      cases ev with
      | mouseDown x y btn =>
        by_cases hin : cw.in_hitbox x y br <;>
          simp only [Widget.dispatch, hf, hin, Bool.false_eq_true, if_true, if_false,
            reduceCtorEq, ite_true, ite_false] at h <;>
          injection h with h1 <;> injection h1 with h2 h3 <;>
          injection h3 with h4 h5 <;> subst h4 <;>
          simp [← Bool.or_assoc]
      | mouseUp x y btn =>
        by_cases hin : cw.in_hitbox x y br <;>
          simp only [Widget.dispatch, hf, hin, Bool.false_eq_true, if_true, if_false,
            reduceCtorEq, ite_true, ite_false] at h <;>
          injection h with h1 <;> injection h1 with h2 h3 <;>
          injection h3 with h4 h5 <;> subst h4 <;>
          simp [← Bool.or_assoc]
      | mouseMove px py x y =>
        by_cases hin : cw.in_hitbox x y br <;>
          by_cases hpin : cw.in_hitbox px py br <;>
          simp only [Widget.dispatch, hf, hin, hpin, Bool.false_eq_true, Bool.not_true,
            Bool.not_false, Bool.true_and, Bool.false_and, Bool.and_true, Bool.and_false,
            reduceCtorEq, ite_true, ite_false] at h <;>
          injection h with h1 <;> injection h1 with h2 h3 <;>
          injection h3 with h4 h5 <;> subst h4 <;>
          simp [← Bool.or_assoc]
  | padding i l t r bo c =>
    exact dispatch_mono c ev p m s oe b s' h
  | row i cs =>
    simp only [Widget.dispatch] at h
    exact dispatchLoopP_mono cs ev p m s p (Bool.or_self p) oe b s' h
  | column i cs =>
    simp only [Widget.dispatch] at h
    exact dispatchLoopP_mono cs ev p m s p (Bool.or_self p) oe b s' h
  | stack i cs =>
    simp only [Widget.dispatch] at h
    exact dispatchLoop_mono cs ev p m s p (Bool.or_self p) oe b s' h

/-- Loop analogue of `dispatch_mono`, for a seed that already absorbs
the prior flag. -/
theorem dispatchLoop_mono {σ : Type} (cs : List (Widget σ)) (ev : Event) (p : Bool)
    (m : LayoutMap) (s : σ) (acc : Bool) (hacc : (p || acc) = acc)
    (oe : Option Event) (b : Bool) (s' : σ)
    (h : Widget.dispatchLoop cs ev p m s acc = some (oe, b, s')) :
    (p || b) = b := by
  cases cs with
  | nil =>
    simp only [Widget.dispatchLoop] at h
    injection h with h1
    injection h1 with h2 h3
    injection h3 with h4 h5
    subst h4
    exact hacc
  | cons c rest =>
    rw [Widget.dispatchLoop] at h
    cases hc : c.dispatch ev p m s with
    | none => rw [hc] at h; simp at h
    | some r =>
      obtain ⟨oe0, b0, s0⟩ := r
      cases oe0 with
      | none =>
        rw [hc] at h
        injection h with h1
        injection h1 with h2 h3
        injection h3 with h4 h5
        subst h4
        simp [← Bool.or_assoc]
      | some ev1 =>
        rw [hc] at h
        exact dispatchLoop_mono rest ev1 p m s0 (p || b0)
          (by simp [← Bool.or_assoc]) oe b s' h

/-- Pair-list analogue of `dispatchLoop_mono`. -/
theorem dispatchLoopP_mono {σ : Type} (cs : List (Widget σ × Nat)) (ev : Event) (p : Bool)
    (m : LayoutMap) (s : σ) (acc : Bool) (hacc : (p || acc) = acc)
    (oe : Option Event) (b : Bool) (s' : σ)
    (h : Widget.dispatchLoopP cs ev p m s acc = some (oe, b, s')) :
    (p || b) = b := by
  cases cs with
  | nil =>
    simp only [Widget.dispatchLoopP] at h
    injection h with h1
    injection h1 with h2 h3
    injection h3 with h4 h5
    subst h4
    exact hacc
  | cons cf rest =>
    obtain ⟨c, f⟩ := cf
    rw [Widget.dispatchLoopP] at h
    cases hc : c.dispatch ev p m s with
    | none => rw [hc] at h; simp at h
    | some r =>
      obtain ⟨oe0, b0, s0⟩ := r
      cases oe0 with
      | none =>
        rw [hc] at h
        injection h with h1
        injection h1 with h2 h3
        injection h3 with h4 h5
        subst h4
        simp [← Bool.or_assoc]
      | some ev1 =>
        rw [hc] at h
        exact dispatchLoopP_mono rest ev1 p m s0 (p || b0)
          (by simp [← Bool.or_assoc]) oe b s' h

end

/-- The pair-list loop ignores the flex weights: it agrees with the
plain loop on the projected children. -/
theorem dispatchLoopP_eq_map {σ : Type} (cs : List (Widget σ × Nat)) (ev : Event)
    (p : Bool) (m : LayoutMap) (s : σ) (acc : Bool) :
    Widget.dispatchLoopP cs ev p m s acc =
      Widget.dispatchLoop (cs.map Prod.fst) ev p m s acc := by
  induction cs generalizing ev s acc with
  | nil => rfl
  | cons cf rest ih =>
    obtain ⟨c, f⟩ := cf
    rw [List.map_cons, Widget.dispatchLoopP, Widget.dispatchLoop]
    cases hc : c.dispatch ev p m s with
    | none => rfl
    | some r =>
      obtain ⟨oe0, b0, s0⟩ := r
      cases oe0 with
      | none => rfl
      | some ev1 => exact ih ev1 s0 (p || b0)

/-- A container loop seeded with the caller's flag returns the OR of
that flag with every state-change boolean reported by the children it
dispatched into. -/
theorem dispatchLoop_reports {σ : Type} (cs : List (Widget σ)) (ev : Event) (p : Bool)
    (m : LayoutMap) (s : σ) (oe : Option Event) (b : Bool) (s' : σ)
    (h : Widget.dispatchLoop cs ev p m s p = some (oe, b, s')) :
    ∃ bs, dispatchReports cs ev p m s = some bs ∧ b = bs.foldl (· || ·) p := by
  induction cs generalizing ev s oe b s' with
  | nil =>
    simp only [Widget.dispatchLoop, Option.some.injEq, Prod.mk.injEq] at h
    exact ⟨[], by simp [dispatchReports], h.2.1.symm⟩
  | cons c rest ih =>
    rw [Widget.dispatchLoop] at h
    cases hc : c.dispatch ev p m s with
    | none => rw [hc] at h; simp at h
    | some r =>
      obtain ⟨oe0, b0, s0⟩ := r
      cases oe0 with
      | none =>
        rw [hc] at h
        simp only [Option.some.injEq, Prod.mk.injEq] at h
        exact ⟨[b0], by simp [dispatchReports, hc], by simp [h.2.1.symm]⟩
      | some ev1 =>
        rw [hc] at h
        obtain ⟨hev, hb0, hs0⟩ := dispatch_pass c ev p m s ev1 b0 s0 hc
        subst hev hs0
        dsimp only at h
        rw [hb0, Bool.or_self] at h
        obtain ⟨bs, hbs, hfold⟩ := ih ev1 s0 oe b s' h
        refine ⟨p :: bs, ?_, ?_⟩
        · simp [dispatchReports, hc, hbs, hb0]
        · simp [hfold]

/-! ### Characterisation of the layout pass -/

theorem flexGeoms_length (ws : List Nat) (start each : ℚ) :
    (flexGeoms ws start each).length = ws.length := by
  induction ws generalizing start with
  | nil => rfl
  | cons f rest ih => simp [flexGeoms, ih]

theorem flexGeoms_getD (ws : List Nat) (start each : ℚ) (j : Nat) (hj : j < ws.length) :
    (flexGeoms ws start each).getD j (0, 0) =
      (start + (((ws.take j).sum : ℕ) : ℚ) * each,
       each * ((ws.getD j 0 : ℕ) : ℚ)) := by
  induction ws generalizing start j with
  | nil => simp at hj
  | cons f rest ih =>
    cases j with
    | zero => simp [flexGeoms]
    | succ jj =>
      have hj' : jj < rest.length := by simpa using hj
      simp only [flexGeoms, List.getD_cons_succ, List.take_succ_cons, List.sum_cons]
      rw [ih (start + (f : ℚ) * each) jj hj']
      simp only [Prod.mk.injEq]
      constructor
      · push_cast; ring
      · trivial

theorem flexGeoms_map_snd_sum (ws : List Nat) (start each : ℚ) :
    ((flexGeoms ws start each).map Prod.snd).sum = each * ((ws.sum : ℕ) : ℚ) := by
  induction ws generalizing start with
  | nil => simp [flexGeoms]
  | cons f rest ih =>
    simp only [flexGeoms, List.map_cons, List.sum_cons, List.sum_cons, ih]
    push_cast
    ring

theorem rowGo_eq_foldl {σ : Type} (cs : List (Widget σ × Nat)) (x y : ℚ) (z : Nat)
    (each h : ℚ) (pf : Nat) (m : LayoutMap) :
    Widget.rowGo cs x y z each h pf m =
      (cs.zip (flexGeoms (cs.map Prod.snd) (x + (pf : ℚ) * each) each)).foldl
        (fun acc q => Widget.compute q.1.1 q.2.1 y z q.2.2 h acc) m := by
  induction cs generalizing pf m with
  | nil => simp [Widget.rowGo]
  | cons cf rest ih =>
    obtain ⟨c, f⟩ := cf
    rw [Widget.rowGo, List.map_cons]
    rw [show flexGeoms (f :: rest.map Prod.snd) (x + (pf : ℚ) * each) each =
        (x + (pf : ℚ) * each, each * (f : ℚ)) ::
          flexGeoms (rest.map Prod.snd) (x + (pf : ℚ) * each + (f : ℚ) * each) each
      from rfl]
    rw [List.zip_cons_cons, List.foldl_cons, ih]
    have harg : x + ((pf + f : ℕ) : ℚ) * each = x + (pf : ℚ) * each + (f : ℚ) * each := by
      push_cast; ring
    rw [harg]

theorem colGo_eq_foldl {σ : Type} (cs : List (Widget σ × Nat)) (x y : ℚ) (z : Nat)
    (each w : ℚ) (pf : Nat) (m : LayoutMap) :
    Widget.colGo cs x y z each w pf m =
      (cs.zip (flexGeoms (cs.map Prod.snd) (y + (pf : ℚ) * each) each)).foldl
        (fun acc q => Widget.compute q.1.1 x q.2.1 z w q.2.2 acc) m := by
  induction cs generalizing pf m with
  | nil => simp [Widget.colGo]
  | cons cf rest ih =>
    obtain ⟨c, f⟩ := cf
    rw [Widget.colGo, List.map_cons]
    rw [show flexGeoms (f :: rest.map Prod.snd) (y + (pf : ℚ) * each) each =
        (y + (pf : ℚ) * each, each * (f : ℚ)) ::
          flexGeoms (rest.map Prod.snd) (y + (pf : ℚ) * each + (f : ℚ) * each) each
      from rfl]
    rw [List.zip_cons_cons, List.foldl_cons, ih]
    have harg : y + ((pf + f : ℕ) : ℚ) * each = y + (pf : ℚ) * each + (f : ℚ) * each := by
      push_cast; ring
    rw [harg]

theorem stackGo_eq_foldl {σ : Type} (cs : List (Widget σ)) (x y : ℚ) (z : Nat)
    (w h : ℚ) (m : LayoutMap) :
    Widget.stackGo cs x y z w h m =
      (cs.enumFrom z).foldl (fun acc q => Widget.compute q.2 x y q.1 w h acc) m := by
  induction cs generalizing z m with
  | nil => simp [Widget.stackGo]
  | cons c rest ih =>
    rw [Widget.stackGo, List.enumFrom, List.foldl_cons, ih]

theorem enumFrom_fst_getD {α : Type} (cs : List α) (z j : Nat) (hj : j < cs.length) :
    ((cs.enumFrom z).map Prod.fst).getD j 0 = z + j := by
  induction cs generalizing z j with
  | nil => simp at hj
  | cons c rest ih =>
    cases j with
    | zero => simp [List.enumFrom]
    | succ jj =>
      have hj' : jj < rest.length := by simpa using hj
      simp only [List.enumFrom, List.map_cons, List.getD_cons_succ]
      rw [ih (z + 1) jj hj']
      omega

/-! ### The claims -/

/-- C1: for a `Row` (and symmetrically a `Column`) with children of flex
weights `w_1..w_n` and nonzero total weight, `compute` hands child `i`
the split-axis offset `(w_1+..+w_{i-1})·(extent/Σw)` and extent
`w_i·(extent/Σw)` (children visited left-to-right, the cross-axis extent
and `z` passed through unchanged), the split-axis extents sum to the
parent's extent exactly, and extents are pairwise proportional to the
flex weights. -/
theorem row_column_flex_split {σ : Type} (i : Nat) (cs : List (Widget σ × Nat))
    (x y : ℚ) (z : Nat) (w h : ℚ) (m : LayoutMap)
    (hw : (cs.map Prod.snd).sum ≠ 0) :
    (Widget.compute (Widget.row i cs) x y z w h m =
      (cs.zip (flexGeoms (cs.map Prod.snd) x (unitExtent (cs.map Prod.snd) w))).foldl
        (fun acc q => Widget.compute q.1.1 q.2.1 y z q.2.2 h acc) m)
    ∧ (∀ j, j < cs.length →
        (flexGeoms (cs.map Prod.snd) x (unitExtent (cs.map Prod.snd) w)).getD j (0, 0) =
          (x + ((((cs.map Prod.snd).take j).sum : ℕ) : ℚ) * unitExtent (cs.map Prod.snd) w,
            unitExtent (cs.map Prod.snd) w * (((cs.map Prod.snd).getD j 0 : ℕ) : ℚ)))
    ∧ ((flexGeoms (cs.map Prod.snd) x (unitExtent (cs.map Prod.snd) w)).map Prod.snd).sum = w
    ∧ (∀ j k, j < cs.length → k < cs.length →
        ((flexGeoms (cs.map Prod.snd) x (unitExtent (cs.map Prod.snd) w)).getD j (0, 0)).2 *
            (((cs.map Prod.snd).getD k 0 : ℕ) : ℚ) =
          ((flexGeoms (cs.map Prod.snd) x (unitExtent (cs.map Prod.snd) w)).getD k (0, 0)).2 *
            (((cs.map Prod.snd).getD j 0 : ℕ) : ℚ))
    ∧ (Widget.compute (Widget.column i cs) x y z w h m =
      (cs.zip (flexGeoms (cs.map Prod.snd) y (unitExtent (cs.map Prod.snd) h))).foldl
        (fun acc q => Widget.compute q.1.1 x q.2.1 z w q.2.2 acc) m)
    ∧ (∀ j, j < cs.length →
        (flexGeoms (cs.map Prod.snd) y (unitExtent (cs.map Prod.snd) h)).getD j (0, 0) =
          (y + ((((cs.map Prod.snd).take j).sum : ℕ) : ℚ) * unitExtent (cs.map Prod.snd) h,
            unitExtent (cs.map Prod.snd) h * (((cs.map Prod.snd).getD j 0 : ℕ) : ℚ)))
    ∧ ((flexGeoms (cs.map Prod.snd) y (unitExtent (cs.map Prod.snd) h)).map Prod.snd).sum = h := by
  have hcast : (((cs.map Prod.snd).sum : ℕ) : ℚ) ≠ 0 := Nat.cast_ne_zero.mpr hw
  refine ⟨?_, ?_, ?_, ?_, ?_, ?_, ?_⟩
  · have hr := rowGo_eq_foldl cs x y z (unitExtent (cs.map Prod.snd) w) h 0 m
    simp only [Nat.cast_zero, zero_mul, add_zero] at hr
    simpa [Widget.compute, unitExtent] using hr
  · intro j hj
    exact flexGeoms_getD _ x _ j (by simpa using hj)
  · rw [flexGeoms_map_snd_sum, unitExtent, div_mul_cancel₀ _ hcast]
  · intro j k hj hk
    rw [flexGeoms_getD _ x _ j (by simpa using hj),
      flexGeoms_getD _ x _ k (by simpa using hk)]
    ring
  · have hc := colGo_eq_foldl cs x y z (unitExtent (cs.map Prod.snd) h) w 0 m
    simp only [Nat.cast_zero, zero_mul, add_zero] at hc
    simpa [Widget.compute, unitExtent] using hc
  · intro j hj
    exact flexGeoms_getD _ y _ j (by simpa using hj)
  · rw [flexGeoms_map_snd_sum, unitExtent, div_mul_cancel₀ _ hcast]

/-- Witness for C1: a row of two rectangles with weights 1 and 2 in a
30-wide parent; the extents sum to 30 and child 1 sits at offset 10 with
extent 20. -/
theorem row_column_flex_split_witness :
    ((flexGeoms [1, 2] 0 (unitExtent [1, 2] 30)).map Prod.snd).sum = 30 ∧
    (flexGeoms [1, 2] 0 (unitExtent [1, 2] 30)).getD 1 (0, 0) =
      (0 + (((([1, 2] : List Nat).take 1).sum : ℕ) : ℚ) * unitExtent [1, 2] 30,
        unitExtent [1, 2] 30 * ((([1, 2] : List Nat).getD 1 0 : ℕ) : ℚ)) := by
  have hthm := row_column_flex_split (σ := Unit) 9
    [(Widget.rectangle 0 (1, 1, 1, 1) 0, 1), (Widget.rectangle 1 (1, 1, 1, 1) 0, 2)]
    0 0 0 30 50 [] (by decide)
  exact ⟨by simpa using hthm.2.2.1, by simpa using hthm.2.1 1 (by norm_num)⟩

/-- C7: padding computes its child with the insets subtracted and
clamped at zero — width' = max 0 (w − left − right), height' =
max 0 (h − top − bottom) — at origin (x + left, y + top) with the same
z; insets that meet or exceed the box give extent exactly 0, and the
clamped extents are never negative. -/
theorem padding_clamps_to_zero {σ : Type} (i : Nat) (l t r b : ℚ) (c : Widget σ)
    (x y : ℚ) (z : Nat) (w h : ℚ) (m : LayoutMap) :
    (Widget.compute (Widget.padding i l t r b c) x y z w h m =
      c.compute (x + l) (y + t) z (max 0 (w - l - r)) (max 0 (h - t - b)) m)
    ∧ (l + r ≥ w → max 0 (w - l - r) = 0)
    ∧ (t + b ≥ h → max 0 (h - t - b) = 0)
    ∧ 0 ≤ max 0 (w - l - r)
    ∧ 0 ≤ max 0 (h - t - b) := by
  have e1 : (if w - r - l < 0 then (0 : ℚ) else w - r - l) = max 0 (w - l - r) := by
    rcases lt_or_ge (w - r - l) 0 with hlt | hge
    · rw [if_pos hlt, eq_comm, max_eq_left] <;> linarith
    · rw [if_neg (not_lt.mpr hge), eq_comm, max_eq_right] <;> linarith
  have e2 : (if h - b - t < 0 then (0 : ℚ) else h - b - t) = max 0 (h - t - b) := by
    rcases lt_or_ge (h - b - t) 0 with hlt | hge
    · rw [if_pos hlt, eq_comm, max_eq_left] <;> linarith
    · rw [if_neg (not_lt.mpr hge), eq_comm, max_eq_right] <;> linarith
  refine ⟨?_, ?_, ?_, le_max_left _ _, le_max_left _ _⟩
  · simp only [Widget.compute]
    rw [e1, e2]
  · intro hge
    rw [max_eq_left] <;> linarith
  · intro hge
    rw [max_eq_left] <;> linarith

/-- Witness for C7: 10-wide, 8-high box with insets left=4, right=7
(≥ width) and top=2, bottom=3: the child gets width exactly 0 and height
3, at origin (4, 2). -/
theorem padding_clamps_to_zero_witness :
    (Widget.compute (Widget.padding (σ := Unit) 5 4 2 7 3 (Widget.empty 6)) 0 0 0 10 8 [] =
      (Widget.empty (σ := Unit) 6).compute (0 + 4) (0 + 2) 0 (max 0 (10 - 4 - 7))
        (max 0 (8 - 2 - 3)) [])
    ∧ max (0 : ℚ) (10 - 4 - 7) = 0 := by
  have hthm := padding_clamps_to_zero (σ := Unit) 5 4 2 7 3 (Widget.empty 6) 0 0 0 10 8 []
  exact ⟨hthm.1, hthm.2.1 (by norm_num)⟩

/-- C8: a stack computed at (x, y, z, w, h) computes child i with the
same x, y, w, h and paint order z + i, so sibling z values are strictly
increasing in child order. -/
theorem stack_same_geometry_increasing_z {σ : Type} (i : Nat) (cs : List (Widget σ))
    (x y : ℚ) (z : Nat) (w h : ℚ) (m : LayoutMap) :
    (Widget.compute (Widget.stack i cs) x y z w h m =
      (cs.enumFrom z).foldl (fun acc q => Widget.compute q.2 x y q.1 w h acc) m)
    ∧ (∀ j, j < cs.length → ((cs.enumFrom z).map Prod.fst).getD j 0 = z + j)
    ∧ (∀ j k, j < k → k < cs.length →
        ((cs.enumFrom z).map Prod.fst).getD j 0 < ((cs.enumFrom z).map Prod.fst).getD k 0) := by
  refine ⟨?_, ?_, ?_⟩
  · simp only [Widget.compute]
    exact stackGo_eq_foldl cs x y z w h m
  · intro j hj
    exact enumFrom_fst_getD cs z j hj
  · intro j k hjk hk
    rw [enumFrom_fst_getD cs z j (lt_trans hjk hk), enumFrom_fst_getD cs z k hk]
    omega

/-- Witness for C8: a two-child stack at base z = 5 gives the children
paint orders 5 and 6, strictly increasing. -/
theorem stack_same_geometry_increasing_z_witness :
    ((([Widget.rectangle (σ := Unit) 0 (1, 1, 1, 1) 0,
        Widget.rectangle 1 (1, 1, 1, 1) 0].enumFrom 5).map Prod.fst).getD 1 0 = 5 + 1)
    ∧ ((([Widget.rectangle (σ := Unit) 0 (1, 1, 1, 1) 0,
        Widget.rectangle 1 (1, 1, 1, 1) 0].enumFrom 5).map Prod.fst).getD 0 0 <
      (([Widget.rectangle (σ := Unit) 0 (1, 1, 1, 1) 0,
        Widget.rectangle 1 (1, 1, 1, 1) 0].enumFrom 5).map Prod.fst).getD 1 0) := by
  have hthm := stack_same_geometry_increasing_z (σ := Unit) 9
    [Widget.rectangle 0 (1, 1, 1, 1) 0, Widget.rectangle 1 (1, 1, 1, 1) 0] 0 0 5 10 10 []
  exact ⟨hthm.2.1 1 (by norm_num), hthm.2.2 0 1 (by norm_num) (by norm_num)⟩

/-- C9: a pointer-gesture wrapper whose id has no entry in the layout
map aborts dispatch (the `unwrap` panic, modelled as `none`) for every
event, rather than treating the node as zero-sized or passing the event
through. -/
theorem mouse_gesture_missing_layout_panics {σ : Type} (i : Nat) (br : ℚ)
    (cc rc : Option (Nat → σ → σ × Bool)) (ec lc : Option (σ → σ × Bool))
    (bg : Widget σ) (ev : Event) (p : Bool) (m : LayoutMap) (s : σ)
    (hm : LayoutMap.find? m i = none) :
    Widget.dispatch (Widget.mouseGesture i br cc rc ec lc bg) ev p m s = none := by
  cases ev <;> simp [Widget.dispatch, hm]

/-- Witness for C9: dispatching into a gesture wrapper with an empty
layout map aborts. -/
theorem mouse_gesture_missing_layout_panics_witness :
    Widget.dispatch (Widget.mouseGesture (σ := Unit) 0 0 none none none none (Widget.empty 1))
      (Event.mouseDown 1 1 0) false [] () = none :=
  mouse_gesture_missing_layout_panics 0 0 none none none none (Widget.empty 1)
    (Event.mouseDown 1 1 0) false [] () rfl

/-- C10: the `Empty` widget's compute inserts nothing at all into the
layout map, and its dispatch returns the event unchanged with the
incoming flag and an unmutated state. -/
theorem empty_invisible {σ : Type} (i : Nat) (x y : ℚ) (z : Nat) (w h : ℚ)
    (m : LayoutMap) (ev : Event) (p : Bool) (s : σ) :
    Widget.compute (Widget.empty (σ := σ) i) x y z w h m = m ∧
    Widget.dispatch (Widget.empty (σ := σ) i) ev p m s = some (some ev, p, s) :=
  ⟨rfl, rfl⟩

/-- C2: for every container node (row, column, stack, padding), every
event and every prior flag, a non-panicking dispatch returns a flag
equal to the caller's prior flag OR-ed with the state-change booleans
reported by every child it dispatched into (in child order, up to the
consuming child), so a `true` reported by any dispatched child is never
lost even when the walk stops early on consumption. -/
theorem container_dispatch_flag_accumulates {σ : Type} (i : Nat) (ev : Event) (p : Bool)
    (m : LayoutMap) (s : σ) :
    (∀ (cs : List (Widget σ × Nat)) (oe : Option Event) (b : Bool) (s' : σ),
      Widget.dispatch (Widget.row i cs) ev p m s = some (oe, b, s') →
      ∃ bs, dispatchReports (cs.map Prod.fst) ev p m s = some bs ∧
        b = bs.foldl (· || ·) p)
    ∧ (∀ (cs : List (Widget σ × Nat)) (oe : Option Event) (b : Bool) (s' : σ),
      Widget.dispatch (Widget.column i cs) ev p m s = some (oe, b, s') →
      ∃ bs, dispatchReports (cs.map Prod.fst) ev p m s = some bs ∧
        b = bs.foldl (· || ·) p)
    ∧ (∀ (cs : List (Widget σ)) (oe : Option Event) (b : Bool) (s' : σ),
      Widget.dispatch (Widget.stack i cs) ev p m s = some (oe, b, s') →
      ∃ bs, dispatchReports cs ev p m s = some bs ∧ b = bs.foldl (· || ·) p)
    ∧ (∀ (l t r bo : ℚ) (c : Widget σ) (oe : Option Event) (b : Bool) (s' : σ),
      Widget.dispatch (Widget.padding i l t r bo c) ev p m s = some (oe, b, s') →
      ∃ bs, dispatchReports [c] ev p m s = some bs ∧ b = bs.foldl (· || ·) p) := by
  refine ⟨?_, ?_, ?_, ?_⟩
  · intro cs oe b s' hd
    simp only [Widget.dispatch] at hd
    rw [dispatchLoopP_eq_map] at hd
    exact dispatchLoop_reports _ ev p m s oe b s' hd
  · intro cs oe b s' hd
    simp only [Widget.dispatch] at hd
    rw [dispatchLoopP_eq_map] at hd
    exact dispatchLoop_reports _ ev p m s oe b s' hd
  · intro cs oe b s' hd
    simp only [Widget.dispatch] at hd
    exact dispatchLoop_reports cs ev p m s oe b s' hd
  · intro l t r bo c oe b s' hd
    simp only [Widget.dispatch] at hd
    cases oe with
    | none =>
      refine ⟨[b], by simp [dispatchReports, hd], ?_⟩
      simpa using (dispatch_mono c ev p m s none b s' hd).symm
    | some ev1 =>
      obtain ⟨hev, hb, hs⟩ := dispatch_pass c ev p m s ev1 b s' hd
      exact ⟨[b], by simp [dispatchReports, hd], by simp [hb]⟩

/-- Witness for C2: a stack of two rectangles dispatching a MouseDown
reports [false, false] and the returned flag is their OR with the prior
flag. -/
theorem container_dispatch_flag_accumulates_witness :
    ∃ bs, dispatchReports [Widget.rectangle (σ := Unit) 0 (1, 1, 1, 1) 0,
        Widget.rectangle 1 (1, 1, 1, 1) 0] (Event.mouseDown 5 5 0) false [] () = some bs ∧
      false = bs.foldl (· || ·) false := by
  have hthm := container_dispatch_flag_accumulates (σ := Unit) 9 (Event.mouseDown 5 5 0)
    false [] ()
  exact hthm.2.2.1 [Widget.rectangle 0 (1, 1, 1, 1) 0, Widget.rectangle 1 (1, 1, 1, 1) 0]
    (some (Event.mouseDown 5 5 0)) false () rfl

/-- C3: a pointer-gesture wrapper with a layout entry handles
`MouseMove{prev, new}` by comparing containment of the new point versus
the previous point: outside→inside runs only the enter callback and
consumes the event; inside→outside runs only the leave callback and
consumes; no transition passes the event through unchanged with no
callback run. -/
theorem mouse_gesture_enter_leave {σ : Type} (i : Nat) (br : ℚ)
    (cc rc : Option (Nat → σ → σ × Bool)) (ef lf : σ → σ × Bool) (bg : Widget σ)
    (m : LayoutMap) (cw : ComputedWidget) (p : Bool) (s : σ) (px py x y : ℚ)
    (hm : LayoutMap.find? m i = some cw) :
    (cw.in_hitbox x y br = true → cw.in_hitbox px py br = false →
      Widget.dispatch (Widget.mouseGesture i br cc rc (some ef) (some lf) bg)
          (Event.mouseMove px py x y) p m s =
        some (none, p || (ef s).2, (ef s).1))
    ∧ (cw.in_hitbox x y br = false → cw.in_hitbox px py br = true →
      Widget.dispatch (Widget.mouseGesture i br cc rc (some ef) (some lf) bg)
          (Event.mouseMove px py x y) p m s =
        some (none, p || (lf s).2, (lf s).1))
    ∧ (cw.in_hitbox x y br = cw.in_hitbox px py br →
      Widget.dispatch (Widget.mouseGesture i br cc rc (some ef) (some lf) bg)
          (Event.mouseMove px py x y) p m s =
        some (some (Event.mouseMove px py x y), p, s)) := by
  refine ⟨?_, ?_, ?_⟩
  · intro h1 h2
    simp [Widget.dispatch, hm, h1, h2]
  · intro h1 h2
    simp [Widget.dispatch, hm, h1, h2]
  · intro h12
    cases hx : cw.in_hitbox x y br <;> rw [hx] at h12 <;>
      simp [Widget.dispatch, hm, hx, h12.symm]

/-- Witness for C3: a 100×50 wrapper at the origin; a move from (−1,−1)
to (50,25) fires only the enter callback (state 0 → 1, flag true) and
consumes the event. -/
theorem mouse_gesture_enter_leave_witness :
    (⟨0, 0, 0, 100, 50, none⟩ : ComputedWidget).in_hitbox 50 25 0 = true ∧
    (⟨0, 0, 0, 100, 50, none⟩ : ComputedWidget).in_hitbox (-1) (-1) 0 = false ∧
    Widget.dispatch (Widget.mouseGesture (σ := Nat) 7 0 none none
        (some fun s => (s + 1, true)) (some fun s => (s + 2, false)) (Widget.empty 8))
      (Event.mouseMove (-1) (-1) 50 25) false [(7, ⟨0, 0, 0, 100, 50, none⟩)] 0 =
      some (none, true, 1) := by
  have h1 : (⟨0, 0, 0, 100, 50, none⟩ : ComputedWidget).in_hitbox 50 25 0 = true := by
    norm_num [ComputedWidget.in_hitbox]
  have h2 : (⟨0, 0, 0, 100, 50, none⟩ : ComputedWidget).in_hitbox (-1) (-1) 0 = false := by
    norm_num [ComputedWidget.in_hitbox]
  have hthm := mouse_gesture_enter_leave (σ := Nat) 7 0 none none
    (fun s => (s + 1, true)) (fun s => (s + 2, false)) (Widget.empty 8)
    [(7, ⟨0, 0, 0, 100, 50, none⟩)] ⟨0, 0, 0, 100, 50, none⟩ false 0 (-1) (-1) 50 25 rfl
  exact ⟨h1, h2, by simpa using hthm.1 h1 h2⟩

/-- C4: in a row of a pointer-gesture wrapper A followed by any widget
B, a MouseDown inside A's layout rectangle runs A's click callback,
consumes the event, and the row's result coincides with dispatching into
A alone — B (universally quantified) is never reached. -/
theorem row_consumption_stops_siblings {σ : Type} (rid aid : Nat) (br : ℚ)
    (clickF : Nat → σ → σ × Bool) (rc : Option (Nat → σ → σ × Bool))
    (ec lc : Option (σ → σ × Bool)) (bgA : Widget σ) (B : Widget σ) (fa fb : Nat)
    (m : LayoutMap) (cwA : ComputedWidget) (p : Bool) (s : σ) (x y : ℚ) (btn : Nat)
    (hm : LayoutMap.find? m aid = some cwA)
    (hin : cwA.in_hitbox x y br = true) :
    Widget.dispatch (Widget.row rid
        [(Widget.mouseGesture aid br (some clickF) rc ec lc bgA, fa), (B, fb)])
        (Event.mouseDown x y btn) p m s =
      some (none, p || (clickF btn s).2, (clickF btn s).1)
    ∧ Widget.dispatch (Widget.row rid
        [(Widget.mouseGesture aid br (some clickF) rc ec lc bgA, fa), (B, fb)])
        (Event.mouseDown x y btn) p m s =
      Widget.dispatch (Widget.mouseGesture aid br (some clickF) rc ec lc bgA)
        (Event.mouseDown x y btn) p m s := by
  have hA : Widget.dispatch (Widget.mouseGesture aid br (some clickF) rc ec lc bgA)
      (Event.mouseDown x y btn) p m s =
      some (none, p || (clickF btn s).2, (clickF btn s).1) := by
    simp [Widget.dispatch, hm, hin]
  have hrow : Widget.dispatch (Widget.row rid
      [(Widget.mouseGesture aid br (some clickF) rc ec lc bgA, fa), (B, fb)])
      (Event.mouseDown x y btn) p m s =
      some (none, p || (clickF btn s).2, (clickF btn s).1) := by
    have hstep : Widget.dispatch (Widget.row rid
        [(Widget.mouseGesture aid br (some clickF) rc ec lc bgA, fa), (B, fb)])
        (Event.mouseDown x y btn) p m s =
        Widget.dispatchLoopP
          [(Widget.mouseGesture aid br (some clickF) rc ec lc bgA, fa), (B, fb)]
          (Event.mouseDown x y btn) p m s p := rfl
    rw [hstep, Widget.dispatchLoopP, hA]
    dsimp only
    simp only [← Bool.or_assoc, Bool.or_self]
  exact ⟨hrow, by rw [hrow, hA]⟩

/-- Witness for C4: a 100×50 wrapper A at the origin in front of a text
sibling B; a MouseDown at (10,10) runs A's click callback (state 0 → 3,
flag true) and consumes the event. -/
theorem row_consumption_stops_siblings_witness :
    Widget.dispatch (Widget.row (σ := Nat) 9
        [(Widget.mouseGesture 1 0 (some fun btn s => (s + btn, true)) none none none
            (Widget.empty 2), 1),
          (Widget.text 3 "B" 12 "font" (0, 0, 0, 1), 1)])
      (Event.mouseDown 10 10 3) false [(1, ⟨0, 0, 0, 100, 50, none⟩)] 0 =
      some (none, true, 3) := by
  have h1 : (⟨0, 0, 0, 100, 50, none⟩ : ComputedWidget).in_hitbox 10 10 0 = true := by
    norm_num [ComputedWidget.in_hitbox]
  have hthm := row_consumption_stops_siblings (σ := Nat) 9 1 0
    (fun btn s => (s + btn, true)) none none none (Widget.empty 2)
    (Widget.text 3 "B" 12 "font" (0, 0, 0, 1)) 1 1
    [(1, ⟨0, 0, 0, 100, 50, none⟩)] ⟨0, 0, 0, 100, 50, none⟩ false 0 10 10 3 rfl h1
  simpa using hthm.1

/-- C5 (evaluating the code at the failing input): `RowBuilder::build`
performs no validation — it accepts a nonempty child list whose total
flex weight is 0 — and `Row::compute` then reaches the unguarded
division `width / 0` and still emits a placement for the child, so the
container neither fails fast nor behaves as an empty container. (In
`f64` the division yields `+∞` and the child extent `∞ · 0 = NaN`; in
this exact model division by zero is total, which makes the emitted
placement visible with extent 0.) A row with no children does place
nothing. -/
theorem row_zero_flex_reaches_division :
    (RowBuilder.build (σ := Unit) [(Widget.rectangle 0 (1, 0, 0, 1) 0, 0)] 1 =
      Widget.row 1 [(Widget.rectangle 0 (1, 0, 0, 1) 0, 0)])
    ∧ (List.map Prod.snd
        [((Widget.rectangle (σ := Unit) 0 (1, 0, 0, 1) 0 : Widget Unit), 0)]).sum = 0
    ∧ LayoutMap.find? (Widget.compute (Widget.row (σ := Unit) 1
        [(Widget.rectangle 0 (1, 0, 0, 1) 0, 0)]) 0 0 0 100 50 []) 0 =
      some ⟨0, 0, 0, 0, 50, some (RenderObject.rectangle ⟨some (1, 0, 0, 1), 0⟩)⟩
    ∧ Widget.compute (Widget.row (σ := Unit) 2 ([] : List (Widget Unit × Nat)))
        0 0 0 100 50 [] = [] := by
  refine ⟨rfl, rfl, ?_, ?_⟩
  · norm_num [Widget.compute, Widget.rowGo, LayoutMap.insert, LayoutMap.find?]
  · norm_num [Widget.compute, Widget.rowGo]

/-- C6: the four closures `Button::build_state` installs on its
pointer-gesture wrapper: click writes the active color into the bound
cell and returns true; release writes the hover color, then invokes the
user's pressed callback (when configured) exactly once with the button
code, and returns true; enter writes the hover color and returns true;
leave writes the base color and returns true. -/
theorem button_callbacks {υ : Type} (base hover active : Color) (br : ℚ)
    (pf : Nat → ButtonState υ → ButtonState υ)
    (child : Option (Widget (ButtonState υ))) (rid sid gid : Nat)
    (s : ButtonState υ) (btn : Nat) :
    (Button.build_state base hover active br (some pf) child rid sid gid =
      Widget.mouseGesture gid br (some (Button.clickCb active))
        (some (Button.releaseCb hover (some pf))) (some (Button.enterCb hover))
        (some (Button.leaveCb base))
        (Widget.stack sid (Widget.rectangle rid base br :: child.toList)))
    ∧ Button.clickCb active btn s = ({ s with rectColor := active }, true)
    ∧ Button.releaseCb hover (some pf) btn s =
        (pf btn { s with rectColor := hover }, true)
    ∧ Button.releaseCb (υ := υ) hover none btn s = ({ s with rectColor := hover }, true)
    ∧ Button.enterCb hover s = ({ s with rectColor := hover }, true)
    ∧ Button.leaveCb base s = ({ s with rectColor := base }, true) :=
  ⟨rfl, rfl, rfl, rfl, rfl, rfl⟩

end Winkel
